import Mathlib

/-!
# Verification of the S&P ingestion pipeline (`src/download_data.py`)

A shallow embedding of `StockInfoDownloader` from `download_data.py` and
proofs about it.  The embedding has three views of the same source code,
each faithful to the lines it covers:

* a pure data-flow view (`StockInfoDownloader.download_stock`,
  `StockInfoDownloader.begin_download`): the value/exception behaviour of
  the Python code, with exceptions modelled by `Except` and the external
  collaborators (the yfinance provider, the wikipedia symbol table, the
  SQL engine) given as parameters / recorded outputs;
* a semaphore-instrumented sequential view
  (`StockInfoDownloader.download_stock_sem`): the same control path of
  `download_stock` with the `threading.Semaphore` counter threaded
  through explicitly (`none` models blocking forever on `acquire`);
* an interleaved small-step view (`Gate.Step`, `Gate.Reachable`): the ten
  pool workers of `begin_download` each running the statement sequence of
  `download_stock`, with the shared semaphore counter, used for the
  concurrency-bound claims.

Python `datetime` construction (used by `__init__` for the start date) is
modelled by `datetime_new` with the real Gregorian validity rules of
`datetime.datetime` (year 1..9999, month 1..12, day 1..days-in-month).
Prices are carried opaquely (the code performs no arithmetic on them);
they are represented as `Int`.
-/

/-- Exceptions that can arise in the modelled fragment of the program:
an exception raised by the `yf.download` provider call, the
`ValueError` pandas raises for `pd.concat` of an empty list, and the
`ValueError` the `datetime` constructor raises for an invalid date. -/
inductive PyErr : Type where
  | providerException : PyErr
  | noObjectsToConcatenate : PyErr
  | invalidDate : PyErr
deriving DecidableEq, Repr

instance instDecEqExcept {ε α : Type} [DecidableEq ε] [DecidableEq α] :
    DecidableEq (Except ε α) := fun x y =>
  match x, y with
  | .ok a, .ok b =>
    if h : a = b then .isTrue (by rw [h])
    else .isFalse (fun hc => h (Except.ok.inj hc))
  | .error a, .error b =>
    if h : a = b then .isTrue (by rw [h])
    else .isFalse (fun hc => h (Except.error.inj hc))
  | .ok _, .error _ => .isFalse (fun hc => Except.noConfusion hc)
  | .error _, .ok _ => .isFalse (fun hc => Except.noConfusion hc)

/-- A `datetime.datetime` value: year/month/day plus an intraday time
component (hour/minute/second).  `datetime.now()` and the constructed
start date are both of this shape. -/
structure Timestamp : Type where
  year : Nat
  month : Nat
  day : Nat
  hour : Nat
  minute : Nat
  second : Nat
deriving DecidableEq, Repr

/-- A `datetime.date` value (what `pd.to_datetime(...).dt.date` yields):
the calendar day with the intraday time component discarded. -/
structure DateOnly : Type where
  year : Nat
  month : Nat
  day : Nat
deriving DecidableEq, Repr

/-- `.dt.date`: truncate a timestamp to calendar-day granularity. -/
def dtDate (t : Timestamp) : DateOnly :=
  { year := t.year, month := t.month, day := t.day }

/-- One row of the raw dataframe returned by `yf.download`: the
`DatetimeIndex` entry plus the OHLCV columns.  Prices are opaque here
(the code never computes with them). -/
structure RawRow : Type where
  ts : Timestamp
  Open : Int
  High : Int
  Low : Int
  Close : Int
  Volume : Int
deriving DecidableEq, Repr

/-- The raw per-symbol dataframe returned by `yf.download`, in the
provider's row order. -/
structure RawSeries : Type where
  rows : List RawRow
deriving DecidableEq, Repr

/-- One row of the normalized dataframe produced by `download_stock`
after `stock_df['Name'] = stock`, `reset_index` and the `Date`
conversion: `{Date, Open, High, Low, Close, Volume, Name}`. -/
structure NormalizedRow : Type where
  Date : DateOnly
  Open : Int
  High : Int
  Low : Int
  Close : Int
  Volume : Int
  Name : String
deriving DecidableEq, Repr

/-- The external market-data provider (`yf.download`), as a black box:
given a symbol and the start/end bounds it either returns a raw series
or raises. -/
def Provider : Type :=
  String → Timestamp → Timestamp → Except PyErr RawSeries

/-- Gregorian leap-year rule (as used by Python's `datetime`). -/
def isLeapYear (y : Nat) : Bool :=
  y % 4 == 0 && (y % 100 != 0 || y % 400 == 0)

/-- Number of days in month `m` of year `y` (Gregorian calendar). -/
def daysInMonth (y m : Nat) : Nat :=
  if m = 2 then (if isLeapYear y then 29 else 28)
  else if m = 4 ∨ m = 6 ∨ m = 9 ∨ m = 11 then 30
  else 31

/-- The `datetime.datetime(year, month, day)` constructor: it raises
`ValueError` unless `1 <= year <= 9999`, `1 <= month <= 12` and
`1 <= day <= days-in-month`; otherwise it yields the date at midnight. -/
def datetime_new (y m d : Nat) : Except PyErr Timestamp :=
  if 1 ≤ y ∧ y ≤ 9999 ∧ 1 ≤ m ∧ m ≤ 12 ∧ 1 ≤ d ∧ d ≤ daysInMonth y m then
    .ok { year := y, month := m, day := d, hour := 0, minute := 0, second := 0 }
  else
    .error .invalidDate

/-- A value `datetime.now()` can produce: a valid Gregorian datetime. -/
abbrev isValidTimestamp (t : Timestamp) : Prop :=
  1 ≤ t.year ∧ t.year ≤ 9999 ∧ 1 ≤ t.month ∧ t.month ≤ 12 ∧
    1 ≤ t.day ∧ t.day ≤ daysInMonth t.year t.month ∧
    t.hour ≤ 23 ∧ t.minute ≤ 59 ∧ t.second ≤ 59

/-- The state of a `StockInfoDownloader` object relevant to the claims:
`self.current_time` (set to `datetime.now()`) and `self.start_time`
(set to `datetime(current.year - 11, current.month, current.day)`).
The `engine` field is the external DB handle (its use is recorded in
`RunResult.sqlWrites`); `self.semaphore` is `threading.Semaphore(1)`,
modelled by the explicit counters below; `self.stock_list` and
`self.main_df` are the remaining, initially empty, fields. -/
structure StockInfoDownloader : Type where
  start_time : Timestamp
  current_time : Timestamp
deriving DecidableEq, Repr

/-- `StockInfoDownloader.__init__`: given the value of `datetime.now()`,
compute `self.start_time = datetime(now.year - 11, now.month, now.day)`
(this constructor call can raise) and keep `self.current_time = now`. -/
def StockInfoDownloader.init (now : Timestamp) : Except PyErr StockInfoDownloader :=
  match datetime_new (now.year - 11) now.month now.day with
  | .error e => .error e
  | .ok st => .ok { start_time := st, current_time := now }

/-- `download_stock` (data-flow view): call
`yf.download(stock, self.start_time, self.current_time)`; if it raises,
the exception propagates.  On success, set `stock_df['Name'] = stock`,
`reset_index`, and convert the `Date` column to dates
(`pd.to_datetime(stock_df['Date']).dt.date`), preserving row order. -/
def StockInfoDownloader.download_stock (self : StockInfoDownloader)
    (provider : Provider) (stock : String) : Except PyErr (List NormalizedRow) :=
  match provider stock self.start_time self.current_time with
  | .error e => .error e
  | .ok stock_df =>
    .ok (stock_df.rows.map fun r =>
      { Date := dtDate r.ts, Open := r.Open, High := r.High, Low := r.Low,
        Close := r.Close, Volume := r.Volume, Name := stock })

/-- `download_stock` (semaphore-instrumented sequential view): the same
statement sequence with the `threading.Semaphore` counter threaded
through.  `self.semaphore.acquire()` blocks forever when the counter is
`0` (modelled by `none`); otherwise it decrements the counter.  On the
success path `self.semaphore.release()` increments it back; on the
exception path of `yf.download` the source has no `try/finally`, so the
exception propagates with no `release()` executed. -/
def StockInfoDownloader.download_stock_sem (self : StockInfoDownloader)
    (provider : Provider) (stock : String) (sem : Nat) :
    Option (Except PyErr (List NormalizedRow) × Nat) :=
  if sem = 0 then
    none
  else
    match provider stock self.start_time self.current_time with
    | .error e => some (.error e, sem - 1)
    | .ok stock_df =>
      some (.ok (stock_df.rows.map fun r =>
        { Date := dtDate r.ts, Open := r.Open, High := r.High, Low := r.Low,
          Close := r.Close, Volume := r.Volume, Name := stock }),
        (sem - 1) + 1)

/-- `.str.replace('.', '-', regex=False)` applied to one ticker string:
every occurrence of the character `.` is replaced by `-`. -/
def replaceDotDash (s : String) : String :=
  String.mk (s.data.map fun c => if c = '.' then '-' else c)

/-- The `stock_list` computed in `begin_download` from the wikipedia
table's `Symbol` column:
`wiki_s_and_p_table[0]['Symbol'].str.replace('.', '-', regex=False).to_list()`. -/
def stockListOf (rawSymbols : List String) : List String :=
  rawSymbols.map replaceDotDash

/-- The `for res in executor.map(self.download_stock, stock_list)` loop:
`executor.map` yields results in input order and re-raises, at iteration
time, the first (in input order) exception raised by a task; the results
collected so far are then discarded as the exception propagates. -/
def executorMapCollect (f : String → Except PyErr (List NormalizedRow)) :
    List String → Except PyErr (List (List NormalizedRow))
  | [] => .ok []
  | s :: rest =>
    match f s with
    | .error e => .error e
    | .ok df =>
      match executorMapCollect f rest with
      | .error e => .error e
      | .ok dfs => .ok (df :: dfs)

/-- `pd.concat(df_list, ignore_index=True)`: raises
`ValueError: No objects to concatenate` when the list is empty, and
otherwise concatenates the dataframes in order. -/
def pd_concat (dfs : List (List NormalizedRow)) : Except PyErr (List NormalizedRow) :=
  if dfs.isEmpty then .error .noObjectsToConcatenate
  else .ok dfs.flatten

/-- The observable outcome of `begin_download`: whether it returned
normally or raised, and the list of payloads passed to
`self.main_df.to_sql('s_and_p', con=self.engine, if_exists='replace')`
(one entry per `to_sql` call actually reached). -/
structure RunResult : Type where
  result : Except PyErr Unit
  sqlWrites : List (List NormalizedRow)
deriving DecidableEq, Repr

/-- `begin_download` (data-flow view), parameterised by the wikipedia
table's raw `Symbol` column: normalize the symbols, run
`executor.map(self.download_stock, stock_list)` collecting the results
(an exception in a task propagates and aborts the run), then
`pd.concat` the collected dataframes and write the result to SQL. -/
def StockInfoDownloader.begin_download (self : StockInfoDownloader)
    (provider : Provider) (rawSymbols : List String) : RunResult :=
  let stock_list := stockListOf rawSymbols
  match executorMapCollect (self.download_stock provider) stock_list with
  | .error e => { result := .error e, sqlWrites := [] }
  | .ok df_list =>
    match pd_concat df_list with
    | .error e => { result := .error e, sqlWrites := [] }
    | .ok main_df => { result := .ok (), sqlWrites := [main_df] }

/-!
## Interleaved small-step view of the worker pool

`begin_download` runs one `download_stock` task per symbol on a
`ThreadPoolExecutor(10)`; the tasks share only `self.semaphore`
(`threading.Semaphore(1)`).  Each task executes, in program order:
`semaphore.acquire()`; the `yf.download` call (which either returns or
raises); `semaphore.release()` (reached only on normal return); then the
normalization statements (`stock_df['Name'] = stock` and the `Date`
conversion).  `Gate.Step` is the interleaving of these statements over a
shared semaphore counter.
-/

namespace Gate

/-- Where a worker task is in the statement sequence of
`download_stock`: before `acquire`; inside the `yf.download` call;
returned from the call but `release()` not yet executed; after
`release()`; after `stock_df['Name'] = stock`; finished (after the
`Date` conversion); or terminated by a `yf.download` exception (which
skips `release()`). -/
inductive Phase : Type where
  | start : Phase
  | inCall : Phase
  | returned : Phase
  | released : Phase
  | tagged : Phase
  | done : Phase
  | failed : Phase
deriving DecidableEq, Repr

/-- Shared state of the pool: the semaphore counter and the phase of
each worker task. -/
structure PoolState : Type where
  sem : Nat
  tasks : List Phase
deriving DecidableEq, Repr

/-- One atomic statement of one task, interleaved with the others. -/
inductive Step : PoolState → PoolState → Prop where
  | acquire (s : PoolState) (i : Nat) :
      s.tasks[i]? = some Phase.start → 0 < s.sem →
      Step s { sem := s.sem - 1, tasks := s.tasks.set i Phase.inCall }
  | ret (s : PoolState) (i : Nat) :
      s.tasks[i]? = some Phase.inCall →
      Step s { sem := s.sem, tasks := s.tasks.set i Phase.returned }
  | raised (s : PoolState) (i : Nat) :
      s.tasks[i]? = some Phase.inCall →
      Step s { sem := s.sem, tasks := s.tasks.set i Phase.failed }
  | release (s : PoolState) (i : Nat) :
      s.tasks[i]? = some Phase.returned →
      Step s { sem := s.sem + 1, tasks := s.tasks.set i Phase.released }
  | tag (s : PoolState) (i : Nat) :
      s.tasks[i]? = some Phase.released →
      Step s { sem := s.sem, tasks := s.tasks.set i Phase.tagged }
  | convert (s : PoolState) (i : Nat) :
      s.tasks[i]? = some Phase.tagged →
      Step s { sem := s.sem, tasks := s.tasks.set i Phase.done }

/-- States reachable from `init` by interleaved steps. -/
inductive Reachable (init : PoolState) : PoolState → Prop where
  | refl : Reachable init init
  | step {s s' : PoolState} : Reachable init s → Step s s' → Reachable init s'

/-- Number of tasks currently inside the `yf.download` call, i.e. number
of provider calls in flight. -/
def countInCall (s : PoolState) : Nat :=
  s.tasks.countP fun q => decide (q = Phase.inCall)

/-- Number of tasks that have returned from the call but not yet
executed `release()`. -/
def countReturned (s : PoolState) : Nat :=
  s.tasks.countP fun q => decide (q = Phase.returned)

/-- The conserved quantity of the admission gate: free slots plus tasks
in flight plus tasks about to release. -/
def gateCount (s : PoolState) : Nat :=
  s.sem + countInCall s + countReturned s

/-- The initial pool state of a run as configured in the source:
`threading.Semaphore(1)` and `ThreadPoolExecutor(10)`. -/
def poolInit : PoolState :=
  { sem := 1, tasks := List.replicate 10 Phase.start }

theorem countP_list_set (p : α → Bool) :
    ∀ (l : List α) (i : Nat) (b c : α), l[i]? = some b →
      (l.set i c).countP p + (if p b then 1 else 0) =
        l.countP p + (if p c then 1 else 0) := by
  intro l
  induction l with
  | nil => intro i b c h; simp at h
  | cons a tl ih =>
    intro i b c h
    cases i with
    | zero =>
      simp only [List.getElem?_cons_zero, Option.some.injEq] at h
      subst h
      simp only [List.set_cons_zero, List.countP_cons]
      omega
    | succ j =>
      simp only [List.getElem?_cons_succ] at h
      simp only [List.set_cons_succ, List.countP_cons]
      have := ih j b c h
      omega

theorem gateCount_step_le {s s' : PoolState} (hs : Step s s') :
    gateCount s' ≤ gateCount s := by
  cases hs with
  | acquire i h hsem =>
    have h1 := countP_list_set (fun q => decide (q = Phase.inCall))
      s.tasks i Phase.start Phase.inCall h
    have h2 := countP_list_set (fun q => decide (q = Phase.returned))
      s.tasks i Phase.start Phase.inCall h
    simp only [gateCount, countInCall, countReturned]
    simp at h1 h2
    omega
  | ret i h =>
    have h1 := countP_list_set (fun q => decide (q = Phase.inCall))
      s.tasks i Phase.inCall Phase.returned h
    have h2 := countP_list_set (fun q => decide (q = Phase.returned))
      s.tasks i Phase.inCall Phase.returned h
    simp only [gateCount, countInCall, countReturned]
    simp at h1 h2
    omega
  | raised i h =>
    have h1 := countP_list_set (fun q => decide (q = Phase.inCall))
      s.tasks i Phase.inCall Phase.failed h
    have h2 := countP_list_set (fun q => decide (q = Phase.returned))
      s.tasks i Phase.inCall Phase.failed h
    simp only [gateCount, countInCall, countReturned]
    simp at h1 h2
    omega
  | release i h =>
    have h1 := countP_list_set (fun q => decide (q = Phase.inCall))
      s.tasks i Phase.returned Phase.released h
    have h2 := countP_list_set (fun q => decide (q = Phase.returned))
      s.tasks i Phase.returned Phase.released h
    simp only [gateCount, countInCall, countReturned]
    simp at h1 h2
    omega
  | tag i h =>
    have h1 := countP_list_set (fun q => decide (q = Phase.inCall))
      s.tasks i Phase.released Phase.tagged h
    have h2 := countP_list_set (fun q => decide (q = Phase.returned))
      s.tasks i Phase.released Phase.tagged h
    simp only [gateCount, countInCall, countReturned]
    simp at h1 h2
    omega
  | convert i h =>
    have h1 := countP_list_set (fun q => decide (q = Phase.inCall))
      s.tasks i Phase.tagged Phase.done h
    have h2 := countP_list_set (fun q => decide (q = Phase.returned))
      s.tasks i Phase.tagged Phase.done h
    simp only [gateCount, countInCall, countReturned]
    simp at h1 h2
    omega

theorem gateCount_reachable {s : PoolState} (hr : Reachable poolInit s) :
    gateCount s ≤ 1 := by
  induction hr with
  | refl =>
    simp [gateCount, countInCall, countReturned, poolInit, List.countP_eq_zero]
  | step _ hs ih => exact le_trans (gateCount_step_le hs) ih

theorem step_from_returned {s s' : PoolState} (i : Nat) (hs : Step s s')
    (h : s.tasks[i]? = some Phase.returned) :
    s'.tasks[i]? = some Phase.returned ∨ s'.tasks[i]? = some Phase.released := by
  have hlt : i < s.tasks.length := by
    by_contra hge
    rw [List.getElem?_eq_none (by omega)] at h
    exact Option.noConfusion h
  cases hs with
  | acquire j hj hsem =>
    by_cases hij : j = i
    · rw [hij] at hj; rw [hj] at h; exact absurd (Option.some.inj h) (by simp)
    · left; simpa [List.getElem?_set_ne hij] using h
  | ret j hj =>
    by_cases hij : j = i
    · rw [hij] at hj; rw [hj] at h; exact absurd (Option.some.inj h) (by simp)
    · left; simpa [List.getElem?_set_ne hij] using h
  | raised j hj =>
    by_cases hij : j = i
    · rw [hij] at hj; rw [hj] at h; exact absurd (Option.some.inj h) (by simp)
    · left; simpa [List.getElem?_set_ne hij] using h
  | release j hj =>
    by_cases hij : j = i
    · right
      rw [hij]
      simpa using List.getElem?_set_self hlt
    · left; simpa [List.getElem?_set_ne hij] using h
  | tag j hj =>
    by_cases hij : j = i
    · rw [hij] at hj; rw [hj] at h; exact absurd (Option.some.inj h) (by simp)
    · left; simpa [List.getElem?_set_ne hij] using h
  | convert j hj =>
    by_cases hij : j = i
    · rw [hij] at hj; rw [hj] at h; exact absurd (Option.some.inj h) (by simp)
    · left; simpa [List.getElem?_set_ne hij] using h

end Gate

/-!
## Helper lemmas about the data-flow view
-/

theorem executorMapCollect_congr (f g : String → Except PyErr (List NormalizedRow))
    (syms : List String) (h : ∀ s ∈ syms, f s = g s) :
    executorMapCollect f syms = executorMapCollect g syms := by
  induction syms with
  | nil => rfl
  | cons a tl ih =>
    have ha := h a (List.mem_cons_self a tl)
    have htl := ih fun s hs => h s (List.mem_cons_of_mem a hs)
    simp only [executorMapCollect, ha, htl]

theorem executorMapCollect_error_of_mem (f : String → Except PyErr (List NormalizedRow))
    (syms : List String) (s : String) (e : PyErr) (hs : s ∈ syms)
    (hf : f s = .error e) :
    ∃ e', executorMapCollect f syms = .error e' := by
  induction syms with
  | nil => cases hs
  | cons a tl ih =>
    cases hmem : f a with
    | error e0 => exact ⟨e0, by simp only [executorMapCollect, hmem]⟩
    | ok df =>
      rcases List.mem_cons.mp hs with h1 | h1
      · subst h1; rw [hf] at hmem; cases hmem
      · rcases ih h1 with ⟨e', he'⟩
        exact ⟨e', by simp only [executorMapCollect, hmem, he']⟩

theorem replaceDotDash_no_dot (s : String) : '.' ∉ (replaceDotDash s).data := by
  intro hmem
  have hmem' : '.' ∈ s.data.map (fun c => if c = '.' then '-' else c) := hmem
  rcases List.mem_map.mp hmem' with ⟨c, _, hc⟩
  by_cases h : c = '.'
  · rw [if_pos h] at hc; exact absurd hc (by decide)
  · rw [if_neg h] at hc; exact h hc

theorem stockListOf_no_dot (rawSymbols : List String) (s : String)
    (hs : s ∈ stockListOf rawSymbols) : '.' ∉ s.data := by
  simp only [stockListOf] at hs
  rcases List.mem_map.mp hs with ⟨r, _, hr⟩
  exact hr ▸ replaceDotDash_no_dot r

theorem begin_download_congr (d : StockInfoDownloader) (p₁ p₂ : Provider)
    (rawSymbols : List String)
    (h : ∀ s ∈ stockListOf rawSymbols,
      p₁ s d.start_time d.current_time = p₂ s d.start_time d.current_time) :
    d.begin_download p₁ rawSymbols = d.begin_download p₂ rawSymbols := by
  have hc : executorMapCollect (d.download_stock p₁) (stockListOf rawSymbols) =
      executorMapCollect (d.download_stock p₂) (stockListOf rawSymbols) := by
    apply executorMapCollect_congr
    intro s hs
    simp only [StockInfoDownloader.download_stock, h s hs]
  simp only [StockInfoDownloader.begin_download, hc]

theorem init_ok_shape (t : Timestamp) (d : StockInfoDownloader)
    (h : StockInfoDownloader.init t = .ok d) :
    d = { start_time := ⟨t.year - 11, t.month, t.day, 0, 0, 0⟩, current_time := t } := by
  unfold StockInfoDownloader.init datetime_new at h
  by_cases hc : 1 ≤ t.year - 11 ∧ t.year - 11 ≤ 9999 ∧ 1 ≤ t.month ∧ t.month ≤ 12 ∧
      1 ≤ t.day ∧ t.day ≤ daysInMonth (t.year - 11) t.month
  · rw [if_pos hc] at h
    exact (Except.ok.inj h).symm
  · rw [if_neg hc] at h
    cases h

theorem daysInMonth_feb_le (y : Nat) : daysInMonth y 2 ≤ 29 := by
  unfold daysInMonth; split_ifs <;> omega

theorem daysInMonth_feb_ge (y : Nat) : 28 ≤ daysInMonth y 2 := by
  unfold daysInMonth; split_ifs <;> omega

theorem daysInMonth_eq_of_ne_feb (y y' m : Nat) (hm : m ≠ 2) :
    daysInMonth y m = daysInMonth y' m := by
  unfold daysInMonth; rw [if_neg hm, if_neg hm]

/-- The lexicographic key of a calendar day (valid for real dates, whose
month is at most 12 and day at most 31). -/
def dateKey (d : DateOnly) : Nat :=
  d.year * 10000 + d.month * 100 + d.day

/-- The spec's invariant "date values are strictly increasing with no
duplicates" for a list of dates. -/
def datesStrictlyIncreasing (l : List DateOnly) : Prop :=
  List.Chain' (fun a b => dateKey a < dateKey b) l

instance (l : List DateOnly) : Decidable (datesStrictlyIncreasing l) :=
  inferInstanceAs (Decidable (List.Chain' (fun a b => dateKey a < dateKey b) l))

/-!
## Concrete fixtures used by counterexamples and witnesses
-/

/-- A concrete run time: 2024-03-15 10:30:00. -/
def tNow : Timestamp :=
  { year := 2024, month := 3, day := 15, hour := 10, minute := 30, second := 0 }

/-- The downloader state produced by `__init__` at `tNow`. -/
def dl0 : StockInfoDownloader :=
  { start_time := { year := 2013, month := 3, day := 15, hour := 0, minute := 0, second := 0 },
    current_time := tNow }

/-- A provider whose call always raises (a hard `yf.download` failure). -/
def pFail : Provider := fun _ _ _ => .error .providerException

/-- A provider that always returns an empty series (what `yf.download`
does for an unknown or delisted symbol). -/
def pEmpty : Provider := fun _ _ _ => .ok { rows := [] }

/-- One raw provider row. -/
def oneRow : RawRow :=
  { ts := { year := 2024, month := 3, day := 14, hour := 9, minute := 30, second := 0 },
    Open := 10, High := 12, Low := 9, Close := 11, Volume := 1000 }

/-- A one-row raw series. -/
def oneSeries : RawSeries := { rows := [oneRow] }

/-- A provider that always returns `oneSeries`. -/
def pOne : Provider := fun _ _ _ => .ok oneSeries

/-- A provider that raises for symbol `BBB` and returns a valid one-row
series for every other symbol. -/
def pPartial : Provider := fun s _ _ =>
  if s = "BBB" then .error .providerException else .ok oneSeries

/-- A raw series whose dates are out of order (2020-05-02 before
2020-05-01). -/
def rawBad : RawSeries :=
  { rows :=
    [{ ts := { year := 2020, month := 5, day := 2, hour := 0, minute := 0, second := 0 },
       Open := 1, High := 1, Low := 1, Close := 1, Volume := 1 },
     { ts := { year := 2020, month := 5, day := 1, hour := 0, minute := 0, second := 0 },
       Open := 2, High := 2, Low := 2, Close := 2, Volume := 2 }] }

/-- A provider that returns the misordered series `rawBad`. -/
def pBad : Provider := fun _ _ _ => .ok rawBad

/-- The normalized rows `download_stock` produces from `rawBad`. -/
def c6Rows : List NormalizedRow :=
  [{ Date := { year := 2020, month := 5, day := 2 },
     Open := 1, High := 1, Low := 1, Close := 1, Volume := 1, Name := "AAA" },
   { Date := { year := 2020, month := 5, day := 1 },
     Open := 2, High := 2, Low := 2, Close := 2, Volume := 2, Name := "AAA" }]

/-!
## Claims
-/

/-- C1 counterexample: with symbols `["AAA", "BBB", "CCC"]` and a
provider that raises only for `BBB`, the run is aborted by the failing
task — the exception re-raises out of the `executor.map` collection
loop, no aggregate is produced, and `to_sql` is never reached.  The
remaining symbols' results are not collected, contradicting the claim
that a per-symbol failure is caught at the task boundary and the rest
still collected. -/
theorem c1_counterexample :
    dl0.begin_download pPartial ["AAA", "BBB", "CCC"] =
      { result := .error .providerException, sqlWrites := [] } := by
  rfl

/-- C1 (amended): a per-symbol fetch failure is NOT caught at the task
boundary.  If the provider call raises for any symbol of the input list,
the exception propagates out of the collection loop of
`begin_download`: the run aborts with an error, no aggregate is formed,
and the SQL replace is never invoked (the other symbols' results are
discarded). -/
theorem c1_failure_aborts_run (d : StockInfoDownloader) (p : Provider)
    (rawSymbols : List String) (s : String) (e : PyErr)
    (hs : s ∈ rawSymbols)
    (hp : p (replaceDotDash s) d.start_time d.current_time = .error e) :
    (∃ e', (d.begin_download p rawSymbols).result = .error e') ∧
      (d.begin_download p rawSymbols).sqlWrites = [] := by
  have hf : d.download_stock p (replaceDotDash s) = .error e := by
    simp only [StockInfoDownloader.download_stock, hp]
  have hmem : replaceDotDash s ∈ stockListOf rawSymbols :=
    List.mem_map_of_mem replaceDotDash hs
  rcases executorMapCollect_error_of_mem (d.download_stock p) (stockListOf rawSymbols)
      (replaceDotDash s) e hmem hf with ⟨e', he'⟩
  refine ⟨⟨e', ?_⟩, ?_⟩
  · simp only [StockInfoDownloader.begin_download, he']
  · simp only [StockInfoDownloader.begin_download, he']

/-- C1 witness: the amended claim applied to the concrete three-symbol
run in which `BBB` fails. -/
theorem c1_failure_aborts_run_witness :
    (∃ e', (dl0.begin_download pPartial ["AAA", "BBB", "CCC"]).result = .error e') ∧
      (dl0.begin_download pPartial ["AAA", "BBB", "CCC"]).sqlWrites = [] :=
  c1_failure_aborts_run dl0 pPartial ["AAA", "BBB", "CCC"] "BBB" .providerException
    (by decide) (by rfl)

/-- C2: evaluation of the semaphore-instrumented `download_stock` at the
failing input.  Starting from one free slot, a raising provider call
terminates the task with the slot still held (counter `0`), while a
successful call restores the counter to `1`: the source has no
`try/finally`, so `semaphore.release()` is skipped on the exception
path and the slot leaks, contradicting the release-on-all-paths claim
(which is clearly the intent of the rate-limiting comment in the
source). -/
theorem c2_semaphore_leak_eval :
    dl0.download_stock_sem pFail "AAPL" 1 = some (.error .providerException, 0) ∧
      dl0.download_stock_sem pEmpty "AAPL" 1 = some (.ok [], 1) := by
  exact ⟨rfl, rfl⟩

/-- C3 counterexample: on the empty symbol list, `df_list` is empty, so
`pd.concat` raises `ValueError: No objects to concatenate`; the run
aborts and `to_sql` is never invoked — contradicting the claim that the
run returns an empty aggregate and still performs the replace once. -/
theorem c3_counterexample :
    dl0.begin_download pEmpty [] =
      { result := .error .noObjectsToConcatenate, sqlWrites := [] } := by
  rfl

/-- C3 (amended): when the input symbol list is empty the run does not
return an empty aggregate — `pd.concat` of the empty dataframe list
raises, `begin_download` aborts with that error, and the persistence
replace is invoked zero times (not once). -/
theorem c3_empty_input_raises (d : StockInfoDownloader) (p : Provider) :
    d.begin_download p [] =
      { result := .error .noObjectsToConcatenate, sqlWrites := [] } := by
  rfl

/-- C4: throughout any interleaved execution of the worker pool from the
configured initial state (semaphore capacity 1, ten workers), at most
one provider call is in flight at any instant; and a task that has
returned from its provider call can only move next to the released
phase — `semaphore.release()` executes before any normalization work
(tagging the `Name` column, converting dates), so a slot is never held
across downstream work. -/
theorem c4_admission_gate :
    (∀ s : Gate.PoolState, Gate.Reachable Gate.poolInit s → Gate.countInCall s ≤ 1) ∧
      (∀ (s s' : Gate.PoolState) (i : Nat), Gate.Step s s' →
        s.tasks[i]? = some Gate.Phase.returned →
        s'.tasks[i]? = some Gate.Phase.returned ∨
          s'.tasks[i]? = some Gate.Phase.released) := by
  constructor
  · intro s hr
    have hg := Gate.gateCount_reachable hr
    simp only [Gate.gateCount] at hg
    omega
  · intro s s' i hs h
    exact Gate.step_from_returned i hs h

/-- C4 witness: the bound and the release-before-normalization step
applied to a concrete reachable state in which worker 0 has returned
from its provider call. -/
theorem c4_admission_gate_witness :
    Gate.countInCall { sem := 0, tasks := Gate.Phase.returned :: List.replicate 9 Gate.Phase.start } ≤ 1 ∧
      (({ sem := 1, tasks := Gate.Phase.released :: List.replicate 9 Gate.Phase.start } :
          Gate.PoolState).tasks[0]? = some Gate.Phase.returned ∨
        ({ sem := 1, tasks := Gate.Phase.released :: List.replicate 9 Gate.Phase.start } :
          Gate.PoolState).tasks[0]? = some Gate.Phase.released) := by
  have h1 : Gate.Step Gate.poolInit
      { sem := 0, tasks := Gate.Phase.inCall :: List.replicate 9 Gate.Phase.start } :=
    Gate.Step.acquire Gate.poolInit 0 rfl (by decide)
  have h2 : Gate.Step
      { sem := 0, tasks := Gate.Phase.inCall :: List.replicate 9 Gate.Phase.start }
      { sem := 0, tasks := Gate.Phase.returned :: List.replicate 9 Gate.Phase.start } :=
    Gate.Step.ret _ 0 rfl
  have hr : Gate.Reachable Gate.poolInit
      { sem := 0, tasks := Gate.Phase.returned :: List.replicate 9 Gate.Phase.start } :=
    Gate.Reachable.step (Gate.Reachable.step Gate.Reachable.refl h1) h2
  have h3 : Gate.Step
      { sem := 0, tasks := Gate.Phase.returned :: List.replicate 9 Gate.Phase.start }
      { sem := 1, tasks := Gate.Phase.released :: List.replicate 9 Gate.Phase.start } :=
    Gate.Step.release _ 0 rfl
  exact ⟨c4_admission_gate.1 _ hr, c4_admission_gate.2 _ _ 0 h3 rfl⟩

/-- C5: every stock symbol used as a fetch key is the
`.str.replace('.', '-', regex=False)` image of a raw wikipedia ticker,
so it contains no literal dot; `"BRK.B"` is rewritten to `"BRK-B"`; and
the run's outcome depends on the provider only through its values at
dot-free symbols (the fetcher never observes an un-rewritten symbol). -/
theorem c5_symbol_normalization :
    (∀ (rawSymbols : List String) (s : String),
        s ∈ stockListOf rawSymbols → '.' ∉ s.data) ∧
      replaceDotDash "BRK.B" = "BRK-B" ∧
      (∀ (d : StockInfoDownloader) (p₁ p₂ : Provider) (rawSymbols : List String),
        (∀ (s : String) (ts te : Timestamp), '.' ∉ s.data → p₁ s ts te = p₂ s ts te) →
        d.begin_download p₁ rawSymbols = d.begin_download p₂ rawSymbols) := by
  refine ⟨stockListOf_no_dot, by decide, ?_⟩
  intro d p₁ p₂ rawSymbols h
  exact begin_download_congr d p₁ p₂ rawSymbols
    (fun s hs => h s _ _ (stockListOf_no_dot rawSymbols s hs))

/-- C5 witness: the normalization applied to the raw ticker `"BRK.B"`. -/
theorem c5_symbol_normalization_witness :
    ('.' ∉ ("BRK-B" : String).data) ∧ replaceDotDash "BRK.B" = "BRK-B" :=
  ⟨c5_symbol_normalization.1 ["BRK.B"] "BRK-B" (by decide), c5_symbol_normalization.2.1⟩

/-- C6 counterexample: a provider series with out-of-order dates
(2020-05-02 before 2020-05-01) is normalized successfully — no
`MalformedDataError` exists in the code and no monotonicity check is
performed — and the resulting series is emitted with its dates
misordered, contradicting the claim that a non-monotonic input is
rejected. -/
theorem c6_counterexample :
    dl0.download_stock pBad "AAA" = .ok c6Rows ∧
      ¬ datesStrictlyIncreasing (c6Rows.map fun r => r.Date) := by
  refine ⟨rfl, ?_⟩
  intro hmono
  simp only [c6Rows, List.map_cons, List.map_nil, datesStrictlyIncreasing,
    List.chain'_cons, List.chain'_singleton, and_true, dateKey] at hmono
  omega

/-- C6 (amended): the pipeline performs no monotonicity check and
defines no `MalformedDataError`.  Whenever the provider call returns,
`download_stock` succeeds and emits the rows in exactly the provider's
order with each date truncated to its calendar day — so the output
dates are strictly increasing only if the provider's already were, and
a misordered input is passed through silently. -/
theorem c6_no_monotonicity_check (d : StockInfoDownloader) (p : Provider)
    (stock : String) (raw : RawSeries)
    (hp : p stock d.start_time d.current_time = .ok raw) :
    ∃ df, d.download_stock p stock = .ok df ∧
      df.map (fun r => r.Date) = raw.rows.map fun r => dtDate r.ts := by
  refine ⟨raw.rows.map fun r =>
    { Date := dtDate r.ts, Open := r.Open, High := r.High, Low := r.Low,
      Close := r.Close, Volume := r.Volume, Name := stock }, ?_, ?_⟩
  · simp only [StockInfoDownloader.download_stock, hp]
  · rw [List.map_map]
    rfl

/-- C6 witness: the amended claim applied to the misordered series
`rawBad`. -/
theorem c6_no_monotonicity_check_witness :
    ∃ df, dl0.download_stock pBad "AAA" = .ok df ∧
      df.map (fun r => r.Date) = rawBad.rows.map fun r => dtDate r.ts :=
  c6_no_monotonicity_check dl0 pBad "AAA" rawBad rfl

/-- C7 counterexample: when the provider returns an empty series
(zero data points for the range), `download_stock` succeeds with an
empty dataframe — the code defines no `EmptySeriesError` and performs
no emptiness check, so the empty response flows onward as an empty
success rather than surfacing as a dedicated error. -/
theorem c7_counterexample :
    dl0.download_stock pEmpty "ZZZ" = .ok [] := by
  rfl

/-- C7 (amended): an empty provider response is not detected: whenever
the provider returns a series with no rows, the fetch returns an empty
(zero-row) success, not an error of any kind. -/
theorem c7_empty_flows_as_success (d : StockInfoDownloader) (p : Provider)
    (stock : String)
    (hp : p stock d.start_time d.current_time = .ok { rows := [] }) :
    d.download_stock p stock = .ok [] := by
  simp only [StockInfoDownloader.download_stock, hp, List.map_nil]

/-- C7 witness: the amended claim applied to a provider that returns an
empty series. -/
theorem c7_empty_flows_as_success_witness :
    dl0.download_stock pEmpty "QQQ" = .ok [] :=
  c7_empty_flows_as_success dl0 pEmpty "QQQ" rfl

/-- C8: whenever the provider call returns a raw series, normalization
succeeds with one output row per input row, every output row's `Name`
field equal to the fetched symbol, and every output row's `Date` equal
to the calendar day of the corresponding input timestamp with the
intraday time component discarded. -/
theorem c8_rows_tagged_and_truncated (d : StockInfoDownloader) (p : Provider)
    (stock : String) (raw : RawSeries)
    (hp : p stock d.start_time d.current_time = .ok raw) :
    ∃ df, d.download_stock p stock = .ok df ∧ df.length = raw.rows.length ∧
      ∀ (i : Nat) (hi : i < df.length) (hr : i < raw.rows.length),
        (df.get ⟨i, hi⟩).Name = stock ∧
          (df.get ⟨i, hi⟩).Date = dtDate (raw.rows.get ⟨i, hr⟩).ts := by
  refine ⟨raw.rows.map fun r =>
    { Date := dtDate r.ts, Open := r.Open, High := r.High, Low := r.Low,
      Close := r.Close, Volume := r.Volume, Name := stock }, ?_, by simp, ?_⟩
  · simp only [StockInfoDownloader.download_stock, hp]
  · intro i hi hr
    constructor
    · simp [List.get_eq_getElem, List.getElem_map]
    · simp [List.get_eq_getElem, List.getElem_map]

/-- C8 witness: the row invariant applied to a concrete one-row fetch of
symbol `AAA` whose raw timestamp has an intraday component. -/
theorem c8_rows_tagged_and_truncated_witness :
    ∃ df, dl0.download_stock pOne "AAA" = .ok df ∧ df.length = oneSeries.rows.length ∧
      ∀ (i : Nat) (hi : i < df.length) (hr : i < oneSeries.rows.length),
        (df.get ⟨i, hi⟩).Name = "AAA" ∧
          (df.get ⟨i, hi⟩).Date = dtDate (oneSeries.rows.get ⟨i, hr⟩).ts :=
  c8_rows_tagged_and_truncated dl0 pOne "AAA" oneSeries rfl

/-- C9: when construction succeeds, the fetch date range is fixed at run
start and shared by every fetch: the end bound is the run's current
date (`self.current_time = datetime.now()`), the start bound is exactly
11 calendar years earlier with the same month and day
(`datetime(year - 11, month, day)`), and the run's outcome depends on
the provider only through its values at this one range — no per-symbol
fetch uses a different range. -/
theorem c9_shared_date_range (t : Timestamp) (d : StockInfoDownloader)
    (h : StockInfoDownloader.init t = .ok d) :
    d.current_time = t ∧
      d.start_time = ⟨t.year - 11, t.month, t.day, 0, 0, 0⟩ ∧
      ∀ (p₁ p₂ : Provider) (rawSymbols : List String),
        (∀ s : String, p₁ s d.start_time d.current_time = p₂ s d.start_time d.current_time) →
        d.begin_download p₁ rawSymbols = d.begin_download p₂ rawSymbols := by
  have hd := init_ok_shape t d h
  subst hd
  refine ⟨rfl, rfl, ?_⟩
  intro p₁ p₂ rawSymbols hp
  exact begin_download_congr _ p₁ p₂ rawSymbols fun s _ => hp s

/-- A provider that answers only requests whose start bound lies in the
year 2013 (used to witness that only the run's fixed range is ever
queried). -/
def pRangeSensitive : Provider := fun _ ts _ =>
  if ts.year = 2013 then .ok { rows := [] } else .error .providerException

/-- C9 witness: the shared-range facts applied to the concrete run time
`tNow`, including two providers that agree only on the run's range yet
produce identical runs. -/
theorem c9_shared_date_range_witness :
    dl0.current_time = tNow ∧
      dl0.start_time = ⟨2013, 3, 15, 0, 0, 0⟩ ∧
      dl0.begin_download pEmpty ["AAA", "BRK.B"] =
        dl0.begin_download pRangeSensitive ["AAA", "BRK.B"] := by
  have h := c9_shared_date_range tNow dl0 rfl
  exact ⟨h.1, h.2.1, h.2.2 pEmpty pRangeSensitive ["AAA", "BRK.B"] fun s => rfl⟩

/-- C10: for any valid current datetime whose year exceeds 11 (as any
value of `datetime.now()` has), constructing the downloader raises
exactly when the current date is February 29: the year 11 years earlier
is then never a leap year (a leap year is divisible by 4, and
subtracting 11 breaks divisibility by 4), so
`datetime(year - 11, month, day)` is invalid; on every other current
date construction succeeds and the start date is a valid datetime. -/
theorem c10_feb29_init (t : Timestamp) (hv : isValidTimestamp t) (hy : 11 < t.year) :
    ((t.month = 2 ∧ t.day = 29) → StockInfoDownloader.init t = .error .invalidDate) ∧
      (¬(t.month = 2 ∧ t.day = 29) →
        ∃ d, StockInfoDownloader.init t = .ok d ∧ isValidTimestamp d.start_time) := by
  obtain ⟨h1, h2, h3, h4, h5, h6, h7, h8, h9⟩ := hv
  constructor
  · rintro ⟨hm, hd29⟩
    rw [hm, hd29] at h6
    have hleap : isLeapYear t.year = true := by
      by_contra hnl
      rw [Bool.not_eq_true] at hnl
      have hdm : daysInMonth t.year 2 = 28 := by
        unfold daysInMonth; simp [hnl]
      omega
    have hy4 : t.year % 4 = 0 := by
      unfold isLeapYear at hleap
      rcases Bool.and_eq_true_iff.mp hleap with ⟨ha, _⟩
      simpa using ha
    have hmod : (t.year - 11) % 4 = 1 := by omega
    have hnl11 : isLeapYear (t.year - 11) = false := by
      unfold isLeapYear
      rw [hmod]
      rfl
    have hdm11 : daysInMonth (t.year - 11) 2 = 28 := by
      unfold daysInMonth; simp [hnl11]
    have hcond : ¬(1 ≤ t.year - 11 ∧ t.year - 11 ≤ 9999 ∧ 1 ≤ 2 ∧ 2 ≤ 12 ∧
        1 ≤ 29 ∧ 29 ≤ daysInMonth (t.year - 11) 2) := by
      rw [hdm11]; omega
    unfold StockInfoDownloader.init datetime_new
    rw [hm, hd29, if_neg hcond]
  · intro hne
    have hdmle : t.day ≤ daysInMonth (t.year - 11) t.month := by
      by_cases hm2 : t.month = 2
      · have hd : t.day ≠ 29 := fun hd => hne ⟨hm2, hd⟩
        rw [hm2] at h6
        have hub := daysInMonth_feb_le t.year
        have hge := daysInMonth_feb_ge (t.year - 11)
        rw [hm2]
        omega
      · rw [daysInMonth_eq_of_ne_feb (t.year - 11) t.year t.month hm2]
        exact h6
    have hcond : 1 ≤ t.year - 11 ∧ t.year - 11 ≤ 9999 ∧ 1 ≤ t.month ∧ t.month ≤ 12 ∧
        1 ≤ t.day ∧ t.day ≤ daysInMonth (t.year - 11) t.month :=
      ⟨by omega, by omega, h3, h4, h5, hdmle⟩
    refine ⟨{ start_time := ⟨t.year - 11, t.month, t.day, 0, 0, 0⟩, current_time := t },
      ?_, ?_⟩
    · unfold StockInfoDownloader.init datetime_new
      rw [if_pos hcond]
    · exact ⟨hcond.1, hcond.2.1, h3, h4, h5, hdmle,
        Nat.zero_le 23, Nat.zero_le 59, Nat.zero_le 59⟩

/-- C10 witness: at the leap-day current date 2024-02-29 construction
fails (2013 is not a leap year), while at 2024-03-15 it succeeds with a
valid start date. -/
theorem c10_feb29_init_witness :
    StockInfoDownloader.init ⟨2024, 2, 29, 12, 0, 0⟩ = .error .invalidDate ∧
      ∃ d, StockInfoDownloader.init ⟨2024, 3, 15, 10, 30, 0⟩ = .ok d ∧
        isValidTimestamp d.start_time := by
  constructor
  · exact (c10_feb29_init ⟨2024, 2, 29, 12, 0, 0⟩ (by decide) (by decide)).1 ⟨rfl, rfl⟩
  · exact (c10_feb29_init ⟨2024, 3, 15, 10, 30, 0⟩ (by decide) (by decide)).2 (by decide)
